import Mathlib

/-!
Shallow embedding of the Canvas-to-Storage sync program (src/main.py) and
proofs about its change detector, per-file processing pipeline, page-merge
logic, JSON export step and HTML renderer.

Machine conventions used throughout:
* Python `None`-able arguments are `Option _`; Python truthiness of strings
  (`"" ` is falsy) and numbers (`0` is falsy) is made explicit.
* A Python timestamp string is modelled by its observable behaviour in
  `has_file_changed`: its truthiness and the result of
  `datetime.fromisoformat(s.replace("Z", "+00:00"))`, which is either a
  parse failure (`ValueError`) or a datetime value.  A datetime value is
  modelled by its naive clock reading in seconds together with its optional
  UTC offset in seconds (`None` offset = timezone-naive).
* Exceptions that can escape a function are modelled with `Except`.
-/

namespace CanvasSync

/-- Python exceptions that can escape the timestamp-comparison code of
`has_file_changed`: `AttributeError` (calling `.replace` on a non-string
such as the float returned by `os.path.getmtime`) and `TypeError`
(comparing an offset-naive and an offset-aware `datetime`).  `ValueError`
never escapes because the source catches it. -/
inductive PyErr where
  | attributeError
  | typeError
  deriving DecidableEq

/-- A Python `datetime` value as produced by `datetime.fromisoformat`:
`clock` is the naive clock reading (seconds on a linear scale, e.g. seconds
since epoch of the wall-clock digits) and `tzOffset` is the UTC offset in
seconds, `none` when the datetime is timezone-naive. -/
structure PyDatetime where
  clock : Int
  tzOffset : Option Int
  deriving DecidableEq

/-- Python `a > b` on two `datetime` values: naive datetimes compare by
their clock reading, aware datetimes compare by their UTC instant
(clock minus offset), and mixing naive with aware raises `TypeError`. -/
def pyDatetimeGT (a b : PyDatetime) : Except PyErr Bool :=
  match a.tzOffset, b.tzOffset with
  | none, none => .ok (decide (b.clock < a.clock))
  | some x, some y => .ok (decide (b.clock - y < a.clock - x))
  | _, _ => .error .typeError

/-- A Python timestamp string, abstracted by its observable behaviour:
`truthy` is Python truthiness (`False` exactly for the empty string) and
`parsed` is the result of
`datetime.fromisoformat(s.replace("Z", "+00:00"))` — `none` when that call
raises `ValueError`. -/
structure TsStr where
  truthy : Bool
  parsed : Option PyDatetime
  deriving DecidableEq

/-- A timestamp string of the form `YYYY-MM-DDTHH:MM:SSZ` (the form Canvas
and the Drive API emit): truthy, parses to an aware datetime at UTC offset
0 whose clock reading is `n` seconds. -/
def tsUTC (n : Int) : TsStr :=
  { truthy := true, parsed := some { clock := n, tzOffset := some 0 } }

/-- A timezone-naive ISO-8601 timestamp string such as
`2024-01-01T00:00:00`: truthy, parses with no UTC offset. -/
def tsNaive (n : Int) : TsStr :=
  { truthy := true, parsed := some { clock := n, tzOffset := none } }

/-- A non-empty string that `datetime.fromisoformat` rejects with
`ValueError`, e.g. `"yesterday"`. -/
def tsUnparseable : TsStr :=
  { truthy := true, parsed := none }

/-- The Python value stored under the `"modified_time"` key of an existing
metadata dict: a string for the Drive backend (`modifiedTime` from the
Drive API, possibly `None` when the field is missing) and a POSIX float
(`os.path.getmtime`, modelled in whole seconds) for the local backend. -/
inductive ModTime where
  | mstr (t : TsStr)
  | mfloat (x : Int)
  | mnone
  deriving DecidableEq

/-- Python truthiness of a `modified_time` value: `None` and `0.0` are
falsy, a string is falsy exactly when empty. -/
def ModTime.truthy : ModTime → Bool
  | .mstr t => t.truthy
  | .mfloat x => !(x == 0)
  | .mnone => false

/-- The metadata dict returned by `get_existing_file_metadata_drive` /
`get_existing_file_metadata_local`: an optional backend file id (present
only for the Drive backend), a size in bytes, and a modified time. -/
structure Metadata where
  id : Option String
  size : Int
  modified_time : ModTime
  deriving DecidableEq

/-- The dict built by `get_existing_file_metadata_local` (src/main.py
lines 115-128) for an existing local file: no `"id"` key, `"size"` from
`os.path.getsize` and `"modified_time"` the POSIX float from
`os.path.getmtime`. -/
def localMetadata (size mtime : Int) : Metadata :=
  { id := none, size := size, modified_time := .mfloat mtime }

/-- The dict built by `get_existing_file_metadata_drive` (src/main.py
lines 90-112) for an existing Drive file: the Drive file id, the integer
size, and `"modified_time"` the `modifiedTime` string from the Drive
API. -/
def driveMetadata (fileId : String) (size : Int) (modifiedTime : TsStr) : Metadata :=
  { id := some fileId, size := size, modified_time := .mstr modifiedTime }

/-- Embedding of `has_file_changed` (src/main.py lines 131-152).
Rule order follows the source exactly: absent metadata returns `True`;
a provided size differing from `existing_metadata["size"]` returns `True`;
then, when both `canvas_updated_at` and `existing_metadata["modified_time"]`
are truthy, the source parses `canvas_updated_at` first (a `ValueError`
is caught and falls through to `return False`), then calls `.replace` on
`existing_metadata["modified_time"]` (raising `AttributeError` when that
value is a float), parses it (a `ValueError` again falls through to
`return False`), and finally compares with `>` (which raises `TypeError`
on a naive/aware mix, an exception the `except ValueError` clause does not
catch); only a strictly-greater comparison returns `True`. -/
def has_file_changed (existing_metadata : Option Metadata) (canvas_size : Option Int := none)
    (canvas_updated_at : Option TsStr := none) : Except PyErr Bool :=
  match existing_metadata with
  | none => .ok true
  | some m =>
    if (match canvas_size with | some s => !(m.size == s) | none => false) then .ok true
    else if (match canvas_updated_at with | some t => t.truthy | none => false)
        && m.modified_time.truthy then
      match canvas_updated_at with
      | some ct =>
        match ct.parsed with
        | none => .ok false
        | some canvas_time =>
          match m.modified_time with
          | .mstr et =>
            match et.parsed with
            | none => .ok false
            | some existing_time =>
              match pyDatetimeGT canvas_time existing_time with
              | .ok true => .ok true
              | .ok false => .ok false
              | .error e => .error e
          | .mfloat _ => .error .attributeError
          | .mnone => .error .attributeError
      | none => .ok false
    else .ok false

/-- Observable actions of the per-artifact processing steps, in program
order: the existing-metadata lookup (a read of the destination), the
download of the source file into the scratch directory, the write of a
JSON temp file, the upsert (either `upload_file_to_drive` or
`save_file_locally`), the `SummaryCollector.add_file` call, and the
`os.remove` of the scratch-directory temp file. -/
inductive Event where
  | metadataLookup (filename : String)
  | download (url : String)
  | jsonWrite (filename : String)
  | pdfBuild (filename : String)
  | upsert (filename : String) (existingId : Option String)
  | summaryAdd (filename : String) (action : String)
  | removeTemp (filename : String)
  deriving DecidableEq

/-- An event that writes to (or toward) the destination store: the
download into the scratch landing zone, the local save / Drive upload, or
the summary append.  Metadata lookups and temp-file removals are reads or
scratch-only cleanup. -/
def Event.isWriteAttempt : Event → Bool
  | .download _ => true
  | .jsonWrite _ => true
  | .pdfBuild _ => true
  | .upsert _ _ => true
  | .summaryAdd _ _ => true
  | _ => false

/-- Recognizes the upsert action (`upload_file_to_drive` /
`save_file_locally`) in a trace. -/
def Event.isUpsert : Event → Bool
  | .upsert _ _ => true
  | _ => false

/-- The fields of the Canvas file dict that `process_canvas_file` reads:
`file_info.get("id")`, `.get("display_name")`, `.get("url")`,
`.get("size")`, `.get("updated_at")`. -/
structure FileInfo where
  id : Option Int
  display_name : Option String
  url : Option String
  size : Option Int
  updated_at : Option TsStr
  deriving DecidableEq

/-- Python truthiness of an optional int (`None` and `0` are falsy). -/
def optIntTruthy : Option Int → Bool
  | some n => !(n == 0)
  | none => false

/-- Python truthiness of an optional string (`None` and `""` are falsy). -/
def optStrTruthy : Option String → Bool
  | some s => !(s == "")
  | none => false

/-- The guard of `process_canvas_file` (src/main.py line 813):
`not all([file_id, filename, file_download_url])`. -/
def fileFieldsTruthy (f : FileInfo) : Bool :=
  optIntTruthy f.id && optStrTruthy f.display_name && optStrTruthy f.url

/-- `file_id in processed_canvas_file_ids` for the Python value under the
`"id"` key (membership of `None` in a set of ints is `False`). -/
def fileIdMem (f : FileInfo) (processed : Finset Int) : Bool :=
  match f.id with
  | some i => decide (i ∈ processed)
  | none => false

/-- The environment a single `process_canvas_file` call observes: the
existing-metadata lookup result, whether `download_canvas_file` succeeds,
whether the upsert (`upload_file_to_drive` / `save_file_locally`)
succeeds, and whether `summary and course_name and dest_label` are all
truthy. -/
structure FileEnv where
  existing : Option Metadata
  downloadOk : Bool
  upsertOk : Bool
  summaryOn : Bool
  deriving DecidableEq

/-- Embedding of `process_canvas_file` (src/main.py lines 791-869) as a
state-passing function.  It returns the Python return value (`Except`
because an exception from `has_file_changed` propagates uncaught), the
updated `processed_canvas_file_ids` set, and the ordered trace of observable
actions.  Faithful control flow: the guard returns 0 before touching the
set; the id is added *before* the metadata lookup and change check; a
Skip decision returns 0 after only the lookup; a failed download returns 0
(leaving any partial download in place); a failed upsert removes the
downloaded temp file and returns 0 with no summary entry; a successful
upsert appends a summary entry (action `"updated"` when metadata existed,
else `"created"`) and returns 1. -/
def process_canvas_file (f : FileInfo) (processed : Finset Int) (env : FileEnv) :
    Except PyErr Nat × Finset Int × List Event :=
  if !(fileFieldsTruthy f) || fileIdMem f processed then
    (.ok 0, processed, [])
  else
    match f.id with
    | none => (.ok 0, processed, [])
    | some fid =>
      let processed' := insert fid processed
      let filename := f.display_name.getD ""
      let evs0 := [Event.metadataLookup filename]
      match has_file_changed env.existing f.size f.updated_at with
      | .error e => (.error e, processed', evs0)
      | .ok false => (.ok 0, processed', evs0)
      | .ok true =>
        let evs1 := evs0 ++ [Event.download (f.url.getD "")]
        if !env.downloadOk then
          (.ok 0, processed', evs1)
        else
          let existingId := env.existing.bind (·.id)
          let evs2 := evs1 ++ [Event.upsert filename existingId]
          if env.upsertOk then
            let evs3 := evs2 ++
              (if env.summaryOn then
                [Event.summaryAdd filename
                  (if env.existing.isSome then "updated" else "created")]
              else [])
            (.ok 1, processed', evs3)
          else
            (.ok 0, processed', evs2 ++ [Event.removeTemp filename])

/-- Embedding of `_export_json_resource` (src/main.py lines 1322-1364):
writes the JSON temp file, attempts the upsert, appends a summary entry
only when the upsert succeeded and `summary and course_name and
dest_label` are truthy, and always removes the temp file in the `finally`
block.  Returns the Python return value (1 on success, 0 otherwise) and
the trace. -/
def export_json_resource (filename : String) (existing : Option Metadata)
    (upsertOk : Bool) (summaryOn : Bool) : Nat × List Event :=
  let existingId := existing.bind (·.id)
  let evs0 := [Event.jsonWrite filename, Event.upsert filename existingId]
  if upsertOk then
    let evs1 := evs0 ++
      (if summaryOn then
        [Event.summaryAdd filename (if existing.isSome then "updated" else "created")]
      else [])
    (1, evs1 ++ [Event.removeTemp filename])
  else
    (0, evs0 ++ [Event.removeTemp filename])

/-- The whitespace characters stripped by Python `str.strip()`: space,
tab, newline, carriage return, vertical tab and form feed. -/
def pyIsSpace (c : Char) : Bool :=
  c == ' ' || c == '\t' || c == '\n' || c == '\r' ||
    c == Char.ofNat 11 || c == Char.ofNat 12

/-- Python `str.strip()`: drop leading and trailing whitespace. -/
def pyStrip (s : String) : String :=
  (((s.toList.dropWhile pyIsSpace).reverse.dropWhile pyIsSpace).reverse).asString

/-- Embedding of `sanitize_filename` (src/main.py lines 85-87):
`re.sub` removes every occurrence of the characters illegal in filenames
and the result is stripped of surrounding whitespace. -/
def sanitize_filename (name : String) : String :=
  pyStrip ((name.toList.filter
    (fun c => !(c == '\\' || c == '/' || c == '*' || c == '?' || c == ':' ||
      c == '"' || c == '<' || c == '>' || c == '|'))).asString)

/-- The environment one `process_canvas_assignment` call observes for its
own PDF artifact: whether the per-assignment folder creation succeeded
(`get_or_create_folder` can return a falsy id on the Drive backend),
the existing-metadata lookup result for the PDF, whether PDF assembly
(`doc.build` and the content construction inside the `try`) raises,
whether the upsert succeeds, and whether `summary and course_name` are
truthy. -/
structure AssignEnv where
  folderOk : Bool
  existing : Option Metadata
  buildOk : Bool
  upsertOk : Bool
  summaryOn : Bool
  deriving DecidableEq

/-- Folds `process_canvas_file` over the files linked from an assignment
description (each with the environment its own call observes), threading
the processed-id set and concatenating traces; an exception escaping a
subcall propagates, as in the source. -/
def processLinkedFiles (links : List (FileInfo × FileEnv))
    (processed : Finset Int) : Except PyErr Nat × Finset Int × List Event :=
  match links with
  | [] => (.ok 0, processed, [])
  | (f, env) :: rest =>
    match process_canvas_file f processed env with
    | (.error e, p', evs) => (.error e, p', evs)
    | (.ok n, p', evs) =>
      match processLinkedFiles rest p' with
      | (.error e, p'', evs') => (.error e, p'', evs ++ evs')
      | (.ok n', p'', evs') => (.ok (n + n'), p'', evs ++ evs')

/-- Embedding of `process_canvas_assignment` (src/main.py lines 872-1236),
restricted to the state it reads.  Returns the Python return value, the
updated processed-id set, the trace of actions on the assignment's own PDF
artifact, and the trace of the linked-file subcalls (which the source
performs after the PDF step by pattern-matching `/files/(\d+)` out of the
description's anchors and delegating to `process_canvas_file`).  Faithful
control flow: a falsy name or a failed folder creation returns 0 with no
action; `has_file_changed` is consulted (with no size argument) only when
`force_regen` is off, and an exception from it propagates uncaught,
skipping the linked-file loop; on a Skip decision the PDF step is skipped
(`pass`) but the linked files are still processed; otherwise the PDF is
built and upserted inside a `try` whose handler and tail both delete the
scratch PDF when still present, and a summary entry is appended only on a
successful upsert. -/
def process_canvas_assignment (name : Option String) (updated_at : Option TsStr)
    (force_regen : Bool) (env : AssignEnv) (links : List (FileInfo × FileEnv))
    (processed : Finset Int) :
    Except PyErr Nat × Finset Int × List Event × List Event :=
  if !(optStrTruthy name) then
    (.ok 0, processed, [], [])
  else if !env.folderOk then
    (.ok 0, processed, [], [])
  else
    let pdfName := sanitize_filename (name.getD "") ++ ".pdf"
    let evs0 := [Event.metadataLookup pdfName]
    let decision : Except PyErr Bool :=
      if force_regen then .ok true
      else has_file_changed env.existing none updated_at
    match decision with
    | .error e => (.error e, processed, evs0, [])
    | .ok changed =>
      let ownEvs :=
        if !changed then evs0
        else if !env.buildOk then
          evs0 ++ [Event.pdfBuild pdfName, Event.removeTemp pdfName]
        else
          let evs1 := evs0 ++ [Event.pdfBuild pdfName,
            Event.upsert pdfName (env.existing.bind (·.id))]
          if env.upsertOk then
            evs1 ++
              (if env.summaryOn then
                [Event.summaryAdd pdfName
                  (if env.existing.isSome then "updated" else "created")]
              else []) ++ [Event.removeTemp pdfName]
          else
            evs1 ++ [Event.removeTemp pdfName]
      let ownCount : Nat := if changed && env.buildOk && env.upsertOk then 1 else 0
      match processLinkedFiles links processed with
      | (.error e, p', levs) => (.error e, p', ownEvs, levs)
      | (.ok n, p', levs) => (.ok (ownCount + n), p', ownEvs, levs)

/-- The fields of a Canvas page dict that the merge in
`process_course_pages` reads: the slug (`"url"`), the alternate slug
(`"page_url"`), the title, and the payload fields carried along. -/
structure PageJson where
  url : Option String
  page_url : Option String
  title : Option String
  body : Option String
  updated_at : Option TsStr
  html_url : Option String
  deriving DecidableEq

/-- Python `a or b or ...` over optional strings: the first truthy operand
(a missing key and the empty string are falsy), normalized to `none` when
every operand is falsy — observationally equivalent under the `if slug:`
guard that follows every use. -/
def firstTruthy : List (Option String) → Option String
  | [] => none
  | v :: rest => if optStrTruthy v then v else firstTruthy rest

/-- The slug under which a direct-listing page is keyed (src/main.py line
1433): `page.get("url") or page.get("page_url") or page.get("title")`. -/
def pageSlug (p : PageJson) : Option String :=
  firstTruthy [p.url, p.page_url, p.title]

/-- A page discovered through the module walk: the page-detail JSON
fetched by following the module item's API url, together with the module
item's own `"page_url"` field (used as the fallback slug, src/main.py
line 1467). -/
structure ModulePageFetch where
  pd : PageJson
  itemPageUrl : Option String
  deriving DecidableEq

/-- The slug for a module-discovered page (src/main.py line 1467):
`pd.get("url") or item.get("page_url") or pd.get("title")`. -/
def modulePageSlug (mp : ModulePageFetch) : Option String :=
  firstTruthy [mp.pd.url, mp.itemPageUrl, mp.pd.title]

/-- The dict inserted for a module-discovered page (src/main.py lines
1470-1476): `title`, `body`, `updated_at`, `html_url` and `url` copied
from the fetched page detail; no `page_url` key. -/
def modulePageDict (mp : ModulePageFetch) : PageJson :=
  { url := mp.pd.url, page_url := none, title := mp.pd.title,
    body := mp.pd.body, updated_at := mp.pd.updated_at, html_url := mp.pd.html_url }

/-- A Python dict of pages as an insertion-ordered association list (keys
are unique by construction): lookup. -/
def dictGet : List (String × PageJson) → String → Option PageJson
  | [], _ => none
  | kv :: rest, k => if kv.1 == k then some kv.2 else dictGet rest k

/-- Python dict assignment `m[k] = v`: replace the binding in place when
the key exists, append otherwise. -/
def dictSet : List (String × PageJson) → String → PageJson → List (String × PageJson)
  | [], k, v => [(k, v)]
  | kv :: rest, k, v => if kv.1 == k then (k, v) :: rest else kv :: dictSet rest k v

/-- The direct-listing pass of `process_course_pages` (src/main.py lines
1431-1435): every page from the pages API whose slug is truthy is assigned
into the map. -/
def directPagesMap (direct : List PageJson) : List (String × PageJson) :=
  direct.foldl
    (fun m p =>
      match pageSlug p with
      | some s => dictSet m s p
      | none => m) []

/-- The module-discovery pass (src/main.py lines 1437-1478): each fetched
module page is added only when its slug is truthy and not already a key of
the map (`if slug and slug not in pages_map`). -/
def addModulePages (m : List (String × PageJson)) (mods : List ModulePageFetch) :
    List (String × PageJson) :=
  mods.foldl
    (fun m mp =>
      match modulePageSlug mp with
      | some s => if (dictGet m s).isSome then m else dictSet m s (modulePageDict mp)
      | none => m) m

/-- The merged `pages_map` of `process_course_pages`: direct-listing
entries inserted first, module-discovered entries added after. -/
def pages_map (direct : List PageJson) (mods : List ModulePageFetch) :
    List (String × PageJson) :=
  addModulePages (directPagesMap direct) mods

/-- A well-formed Canvas file dict with id 7, used as a concrete input. -/
def sampleFile : FileInfo :=
  { id := some 7, display_name := some "notes.pdf",
    url := some "https://canvas.example/files/7/download",
    size := some 100, updated_at := some (tsUTC 1700000000) }

/-- Concrete input: the direct-listing version of a page. -/
def directSyllabusPage : PageJson :=
  { url := some "syllabus", page_url := none, title := some "Syllabus",
    body := some "direct body", updated_at := some (tsUTC 1700000000),
    html_url := some "https://canvas.example/pages/syllabus" }

/-- Concrete input: the page detail fetched via a module item. -/
def moduleSyllabusDetail : PageJson :=
  { url := some "syllabus", page_url := none, title := some "Syllabus",
    body := some "module body", updated_at := some (tsUTC 1700000001),
    html_url := some "https://canvas.example/pages/syllabus" }

/-- Concrete input: the same page as discovered via a module. -/
def moduleSyllabusPage : ModulePageFetch :=
  { pd := moduleSyllabusDetail, itemPageUrl := some "syllabus" }

/-- A ReportLab paragraph style, restricted to the two attributes the
renderer's emitted markup mentions: `fontName` and `fontSize`. -/
structure PStyle where
  fontName : String
  fontSize : Nat
  deriving DecidableEq

/-- A parsed HTML node as BeautifulSoup hands it to `process_element`: a
text node (`element.name is None`, `element.string` its text) or a tag
with its name, its `href` attribute when present
(`element.get("href", "")` supplies `""` when absent), and its
children. -/
inductive HNode where
  | text (s : String)
  | tag (name : String) (href : Option String) (children : List HNode)

/-- The flowables `process_element` appends to the shared `elements`
list: paragraphs, spacers, and list blocks (a list block's items are the
rendered `li` paragraphs, kept as content/style pairs; `bulletType` is
`"bullet"` for `ul` and `"1"` for `ol`). -/
inductive Flowable where
  | para (content : String) (style : PStyle)
  | spacer (w h : Nat)
  | listFlowable (items : List (String × PStyle)) (bulletType : String)

/-- Python `str.lower()`, character by character. -/
def pyLower (s : String) : String :=
  (s.toList.map Char.toLower).asString

/-- Whether the first list is an initial segment of the second. -/
def listIsInit : List Char → List Char → Bool
  | [], _ => true
  | _ :: _, [] => false
  | a :: as, b :: bs => a == b && listIsInit as bs

/-- Python `s.startswith(pre)`. -/
def pyStartsWith (s pre : String) : Bool :=
  listIsInit pre.toList s.toList

/-- Python `html.escape(text, quote=False)`: replace the ampersand and
the angle brackets by their entities. -/
def pyHtmlEscape (s : String) : String :=
  String.join (s.toList.map fun c =>
    if c == '&' then "&amp;"
    else if c == '<' then "&lt;"
    else if c == '>' then "&gt;"
    else String.singleton c)

mutual

/-- BeautifulSoup `element.get_text()`: the concatenation of every
descendant text node's text, with no separator. -/
def get_text : HNode → String
  | .text s => s
  | .tag _ _ cs => get_text_list cs

/-- `get_text` over a child list, left to right. -/
def get_text_list : List HNode → String
  | [] => ""
  | c :: cs => get_text c ++ get_text_list cs

end

mutual

/-- Embedding of the recursive `process_element` closure of
`html_to_pdf_elements` (src/main.py lines 228-383).  `styles` is the
per-tag style table built at lines 164-226 (a total lookup standing for
`styles.get(key, base_styles["Normal"])`).  The Python function mutates
an outer `elements` list and returns an inline markup string; here it
returns the inline string together with the flowables appended during the
call, in order.  Tag dispatch, the style passed to children, the
trimmed-emptiness guards, the `<font>`/`<br/>`/`<link>` markup, and the
`Spacer` sizes follow the source case by case; `ul`/`ol` iterate only
direct `li` children (`find_all("li", recursive=False)`), and unknown
tags render their children with the inherited style and return the result
inline. -/
def process_element (styles : String → PStyle) (el : HNode)
    (current_style : Option PStyle) : String × List Flowable :=
  match el with
  | .text s =>
    if !(s == "") && !(pyStrip s == "") then
      match current_style with
      | some st =>
        ("<font name=\"" ++ st.fontName ++ "\" size=\"" ++ toString st.fontSize ++
          "\">" ++ pyHtmlEscape s ++ "</font>", [])
      | none => (pyHtmlEscape s, [])
    else ("", [])
  | .tag name href cs =>
    let tag := pyLower name
    if tag == "p" || tag == "div" then
      let r := process_children styles cs current_style
      if !(pyStrip r.1 == "") then
        ("", r.2 ++ [.para r.1 (current_style.getD (styles "p")), .spacer 1 6])
      else ("", r.2)
    else if tag == "h1" || tag == "h2" || tag == "h3" || tag == "h4" || tag == "h5"
        || tag == "h6" then
      let r := process_children styles cs (some (styles tag))
      if !(pyStrip r.1 == "") then
        ("", r.2 ++ [.para r.1 (styles tag), .spacer 1 12])
      else ("", r.2)
    else if tag == "strong" || tag == "b" then
      process_children styles cs (some (styles "strong"))
    else if tag == "em" || tag == "i" then
      process_children styles cs (some (styles "em"))
    else if tag == "u" then
      process_children styles cs (some (styles "u"))
    else if tag == "br" then
      ("<br/>", [])
    else if tag == "a" then
      let hrefv := href.getD ""
      let r := process_children styles cs current_style
      if !(pyStrip r.1 == "") then
        if pyStartsWith hrefv "#" then (r.1, r.2)
        else ("<link href=\"" ++ hrefv ++ "\">" ++ r.1 ++ "</link>", r.2)
      else (r.1, r.2)
    else if tag == "ul" || tag == "ol" then
      let r := process_list_items styles cs
      if !(r.2 == []) then
        ("", r.1 ++ [.listFlowable r.2 (if tag == "ul" then "bullet" else "1"),
          .spacer 1 6])
      else ("", r.1)
    else if tag == "li" then
      process_children styles cs current_style
    else if tag == "blockquote" then
      let r := process_children styles cs (some (styles "blockquote"))
      if !(pyStrip r.1 == "") then
        ("", r.2 ++ [.para r.1 (styles "blockquote"), .spacer 1 6])
      else ("", r.2)
    else if tag == "code" || tag == "pre" then
      let content := get_text_list cs
      if !(pyStrip content == "") then
        ("", [.para content (styles tag), .spacer 1 6])
      else ("", [])
    else
      process_children styles cs current_style

/-- The `for child in element.children` accumulation of `process_element`:
concatenated inline markup and appended flowables, left to right. -/
def process_children (styles : String → PStyle) (cs : List HNode)
    (current_style : Option PStyle) : String × List Flowable :=
  match cs with
  | [] => ("", [])
  | c :: rest =>
    let r := process_element styles c current_style
    let r' := process_children styles rest current_style
    (r.1 ++ r'.1, r.2 ++ r'.2)

/-- The `ul`/`ol` loop over `find_all("li", recursive=False)`: direct
children that are `li` tags contribute a rendered item (when their trimmed
content is non-empty) and any flowables their own children emitted; other
direct children are skipped. -/
def process_list_items (styles : String → PStyle) (cs : List HNode) :
    List Flowable × List (String × PStyle) :=
  match cs with
  | [] => ([], [])
  | c :: rest =>
    match c with
    | .tag n _ lcs =>
      if pyLower n == "li" then
        let r := process_children styles lcs (some (styles "li"))
        let r' := process_list_items styles rest
        if !(pyStrip r.1 == "") then (r.2 ++ r'.1, (r.1, styles "li") :: r'.2)
        else (r.2 ++ r'.1, r'.2)
      else process_list_items styles rest
    | .text _ => process_list_items styles rest

end

/-- A concrete style table for witnesses. -/
def sampleStyles : String → PStyle := fun _ => { fontName := "Helvetica", fontSize := 10 }

/-- Claim C1, counterexample.  The claim states that for every input the
function applies rules (1)-(3) in order and otherwise decides Skip
(`False`).  At the concrete input where the existing metadata is the local
backend's dict (whose `modified_time` is the POSIX float from
`os.path.getmtime`), no size is provided, and the source timestamp is a
valid `...Z` string, the code decides neither Update nor Skip: it raises
`AttributeError` (`float` has no `.replace`). -/
theorem C1_counterexample :
    has_file_changed (some (localMetadata 100 1700000000)) none (some (tsUTC 1700001000)) =
      .error .attributeError :=
  rfl

/-- Claim C1 (amended): the decision rules hold in order on every input on
which the timestamp comparison does not raise.  (1) absent metadata decides
Create (`True`) regardless of the other fields; (2) a provided size
differing from the existing size decides Update (`True`); (3) with no size
signal, a truthy source timestamp that parses, a string existing
`modified_time` that is truthy and parses, and a strictly-later comparison
decide Update; (4) in all remaining non-raising situations — no source
timestamp, a falsy one, a falsy existing `modified_time`, a source
timestamp that fails to parse, a string existing time that fails to parse,
or a comparison that is not strictly later — the decision is Skip
(`False`). -/
theorem C1_rules :
    (∀ (s : Option Int) (t : Option TsStr), has_file_changed none s t = .ok true) ∧
    (∀ (m : Metadata) (s : Int) (t : Option TsStr), m.size ≠ s →
      has_file_changed (some m) (some s) t = .ok true) ∧
    (∀ (m : Metadata) (s : Option Int) (ct : TsStr) (cdt : PyDatetime) (et : TsStr)
        (edt : PyDatetime),
      (s = none ∨ s = some m.size) →
      ct.truthy = true → ct.parsed = some cdt →
      m.modified_time = .mstr et → et.truthy = true → et.parsed = some edt →
      pyDatetimeGT cdt edt = .ok true →
      has_file_changed (some m) s (some ct) = .ok true) ∧
    (∀ (m : Metadata) (s : Option Int), (s = none ∨ s = some m.size) →
      has_file_changed (some m) s none = .ok false) ∧
    (∀ (m : Metadata) (s : Option Int) (ct : TsStr), (s = none ∨ s = some m.size) →
      ct.truthy = false → has_file_changed (some m) s (some ct) = .ok false) ∧
    (∀ (m : Metadata) (s : Option Int) (ct : TsStr), (s = none ∨ s = some m.size) →
      m.modified_time.truthy = false → has_file_changed (some m) s (some ct) = .ok false) ∧
    (∀ (m : Metadata) (s : Option Int) (ct : TsStr), (s = none ∨ s = some m.size) →
      ct.parsed = none → has_file_changed (some m) s (some ct) = .ok false) ∧
    (∀ (m : Metadata) (s : Option Int) (ct : TsStr) (cdt : PyDatetime) (et : TsStr),
      (s = none ∨ s = some m.size) →
      ct.parsed = some cdt → m.modified_time = .mstr et → et.parsed = none →
      has_file_changed (some m) s (some ct) = .ok false) ∧
    (∀ (m : Metadata) (s : Option Int) (ct : TsStr) (cdt : PyDatetime) (et : TsStr)
        (edt : PyDatetime),
      (s = none ∨ s = some m.size) →
      ct.parsed = some cdt → m.modified_time = .mstr et → et.parsed = some edt →
      pyDatetimeGT cdt edt = .ok false →
      has_file_changed (some m) s (some ct) = .ok false) := by
  refine ⟨fun s t => rfl, ?_, ?_, ?_, ?_, ?_, ?_, ?_, ?_⟩
  · intro m s t hne
    simp [has_file_changed, hne]
  · intro m s ct cdt et edt hs hct hcp hmt het hep hgt
    rcases hs with h | h <;> subst h <;>
      simp [has_file_changed, hct, hcp, hmt, het, hep, hgt, ModTime.truthy]
  · intro m s hs
    rcases hs with h | h <;> subst h <;> simp [has_file_changed]
  · intro m s ct hs hct
    rcases hs with h | h <;> subst h <;> simp [has_file_changed, hct]
  · intro m s ct hs hmt
    rcases hs with h | h <;> subst h <;> simp [has_file_changed, hmt]
  · intro m s ct hs hcp
    rcases hs with h | h <;> subst h <;> simp [has_file_changed, hcp]
  · intro m s ct cdt et hs hcp hmt hep
    rcases hs with h | h <;> subst h <;> simp [has_file_changed, hcp, hmt, hep]
  · intro m s ct cdt et edt hs hcp hmt hep hgt
    rcases hs with h | h <;> subst h <;> simp [has_file_changed, hcp, hmt, hep, hgt]

/-- Claim C1 witness: the amended rules instantiated at the spec's three
concrete examples — sizes 100 vs 200 decide Update, equal sizes with a
source timestamp strictly earlier than the existing modified time decide
Skip, and absent metadata decides Create. -/
theorem C1_rules_witness :
    has_file_changed (some (driveMetadata "f1" 100 (tsUTC 1700000000))) (some 200)
        (some (tsUTC 1690000000)) = .ok true ∧
    has_file_changed (some (driveMetadata "f1" 100 (tsUTC 1700000000))) (some 100)
        (some (tsUTC 1690000000)) = .ok false ∧
    has_file_changed none (some 200) (some (tsUTC 1700000000)) = .ok true :=
  ⟨C1_rules.2.1 (driveMetadata "f1" 100 (tsUTC 1700000000)) 200 (some (tsUTC 1690000000))
      (by decide),
   C1_rules.2.2.2.2.2.2.2.2 (driveMetadata "f1" 100 (tsUTC 1700000000)) (some 100)
      (tsUTC 1690000000) { clock := 1690000000, tzOffset := some 0 } (tsUTC 1700000000)
      { clock := 1700000000, tzOffset := some 0 } (Or.inr rfl) rfl rfl rfl rfl,
   C1_rules.1 (some 200) (some (tsUTC 1700000000))⟩

/-- Claim C2: on the second run against an unchanged source, the metadata
recorded by the *local* backend (POSIX float `modified_time`, equal size)
makes `has_file_changed` raise `AttributeError` instead of evaluating to
Skip — the claimed second-run Skip holds only for the Drive backend, whose
recorded `modifiedTime` is an ISO string set at upload time (hence not
earlier than the unchanged source's `updated_at`). -/
theorem C2_second_run :
    has_file_changed (some (localMetadata 2048 1700000500)) (some 2048)
        (some (tsUTC 1699999000)) = .error .attributeError ∧
    has_file_changed (some (driveMetadata "fid" 2048 (tsUTC 1700000500))) (some 2048)
        (some (tsUTC 1699999000)) = .ok false :=
  ⟨rfl, rfl⟩

/-- Claim C5: evaluating the code at the failing input.  With existing
metadata present, no size signal, and a truthy source timestamp that fails
to parse, `has_file_changed` returns `False` (Skip): the `except
ValueError: pass` clause falls through to `return False`, contradicting
both the claim and the source's own comment `# If parsing fails, assume
changed`. -/
theorem C5_parse_failure_skips :
    has_file_changed (some (driveMetadata "fid" 100 (tsUTC 1700000000))) none
        (some tsUnparseable) = .ok false :=
  rfl

/-- Claim C6: the timestamp comparison does *not* totally evaluate.  For
the local backend's metadata (POSIX float `modified_time`) it raises
`AttributeError`, and for a timezone-naive ISO string compared against an
aware source timestamp it raises `TypeError` (no UTC normalization is
performed before `>`); neither exception is caught by the `except
ValueError` clause. -/
theorem C6_comparison_raises :
    has_file_changed (some (localMetadata 4096 1700000000)) none
        (some (tsUTC 1700500000)) = .error .attributeError ∧
    has_file_changed (some (driveMetadata "fid" 4096 (tsNaive 1700000000))) none
        (some (tsUTC 1700500000)) = .error .typeError :=
  ⟨rfl, rfl⟩

/-- Helper: when the id under processing is already in the processed set,
`process_canvas_file` returns 0 immediately with no action and an
unchanged set. -/
theorem process_canvas_file_mem (f : FileInfo) (p : Finset Int) (env : FileEnv) (i : Int)
    (hid : f.id = some i) (hmem : i ∈ p) :
    process_canvas_file f p env = (.ok 0, p, []) := by
  have h1 : fileIdMem f p = true := by simp [fileIdMem, hid, hmem]
  unfold process_canvas_file
  simp [h1]

/-- Helper: when the guard passes, the id is inserted into the processed
set no matter how the rest of the call turns out (change-check exception,
Skip, failed download, failed or successful upsert). -/
theorem process_canvas_file_insert (f : FileInfo) (p : Finset Int) (env : FileEnv) (i : Int)
    (hid : f.id = some i) (htr : fileFieldsTruthy f = true) (hmem : i ∉ p) :
    (process_canvas_file f p env).2.1 = insert i p := by
  have h1 : fileIdMem f p = false := by simp [fileIdMem, hid, hmem]
  unfold process_canvas_file
  simp only [htr, h1, Bool.not_true, Bool.or_self, Bool.false_or, if_neg, hid]
  rcases h : has_file_changed env.existing f.size f.updated_at with e | b
  · simp
  · cases b <;> cases hd : env.downloadOk <;> cases hu : env.upsertOk <;> simp

/-- Helper: when the change decision is Skip, `process_canvas_file`
returns 0 and its trace is empty or a single metadata lookup. -/
theorem process_canvas_file_skip_cases (f : FileInfo) (p : Finset Int) (env : FileEnv)
    (h : has_file_changed env.existing f.size f.updated_at = .ok false) :
    process_canvas_file f p env = (.ok 0, p, []) ∨
    ∃ fid, process_canvas_file f p env =
      (.ok 0, insert fid p, [Event.metadataLookup (f.display_name.getD "")]) := by
  unfold process_canvas_file
  cases hg : (!fileFieldsTruthy f || fileIdMem f p) with
  | true => left; simp [hg]
  | false =>
    cases hid : f.id with
    | none => left; simp [hg, hid]
    | some fid => right; exact ⟨fid, by simp [hg, hid, h]⟩

/-- Claim C3: whenever the change decision is Skip (`has_file_changed`
returns `False`), no destination write happens for that artifact:
`process_canvas_file` returns 0 with no download, upsert or summary
action, and `process_canvas_assignment` (with force-regeneration off)
performs no PDF build, upsert or summary action for its own artifact —
only reads appear in the artifact's trace. -/
theorem C3_skip_no_write :
    (∀ (f : FileInfo) (p : Finset Int) (env : FileEnv),
      has_file_changed env.existing f.size f.updated_at = .ok false →
      (process_canvas_file f p env).1 = .ok 0 ∧
      ∀ e ∈ (process_canvas_file f p env).2.2, e.isWriteAttempt = false) ∧
    (∀ (name : Option String) (upd : Option TsStr) (env : AssignEnv)
        (links : List (FileInfo × FileEnv)) (p : Finset Int),
      has_file_changed env.existing none upd = .ok false →
      ∀ e ∈ (process_canvas_assignment name upd false env links p).2.2.1,
        e.isWriteAttempt = false) := by
  constructor
  · intro f p env hskip
    rcases process_canvas_file_skip_cases f p env hskip with h | ⟨fid, h⟩ <;>
      rw [h] <;> simp [Event.isWriteAttempt]
  · intro name upd env links p hskip e he
    unfold process_canvas_assignment at he
    cases hn : optStrTruthy name <;> simp only [hn] at he
    · simp at he
    · cases hf : env.folderOk <;> simp only [hf] at he
      · simp at he
      · simp only [hskip, Bool.not_true, Bool.not_false, if_true, if_false,
          Bool.false_and, Bool.true_and, ite_true, ite_false, reduceIte] at he
        rcases hpl : processLinkedFiles links p with ⟨r, p', levs⟩
        rcases r with er | n <;> simp [hpl] at he <;>
          (subst he; simp [Event.isWriteAttempt])

/-- Claim C3 witness: an unchanged file (equal size, source timestamp
older than the destination's) is skipped — the call returns 0. -/
theorem C3_skip_no_write_witness :
    (process_canvas_file sampleFile ∅
      { existing := some (driveMetadata "fid" 100 (tsUTC 1700000500)),
        downloadOk := true, upsertOk := true, summaryOn := true }).1 = .ok 0 :=
  (C3_skip_no_write.1 sampleFile ∅
    { existing := some (driveMetadata "fid" 100 (tsUTC 1700000500)),
      downloadOk := true, upsertOk := true, summaryOn := true } rfl).1

/-- Claim C4: within one course run the pipeline executes at most once per
file id.  If the first call for id `i` enters the pipeline (well-formed
dict, id not yet processed), then any later call for the same id — from
any traversal path, with any file dict and environment — returns 0 with no
action and an unchanged set; the first call's trace contains at most one
upsert, and exactly one when its decision was Update and the download
succeeded, so a file reachable from two paths is upserted exactly once. -/
theorem C4_at_most_once :
    ∀ (f : FileInfo) (p : Finset Int) (env : FileEnv) (i : Int)
      (f' : FileInfo) (env' : FileEnv),
      f.id = some i → fileFieldsTruthy f = true → i ∉ p → f'.id = some i →
      (process_canvas_file f' (process_canvas_file f p env).2.1 env' =
        (.ok 0, (process_canvas_file f p env).2.1, [])) ∧
      ((process_canvas_file f p env).2.2.filter Event.isUpsert).length ≤ 1 ∧
      (has_file_changed env.existing f.size f.updated_at = .ok true →
        env.downloadOk = true →
        ((process_canvas_file f p env).2.2.filter Event.isUpsert).length = 1) := by
  intro f p env i f' env' hid htr hmem hid'
  have hins := process_canvas_file_insert f p env i hid htr hmem
  refine ⟨?_, ?_, ?_⟩
  · rw [hins]
    exact process_canvas_file_mem f' (insert i p) env' i hid' (Finset.mem_insert_self i p)
  · have h1 : fileIdMem f p = false := by simp [fileIdMem, hid, hmem]
    unfold process_canvas_file
    simp only [htr, h1, Bool.not_true, Bool.or_self, Bool.false_or, hid]
    rcases h : has_file_changed env.existing f.size f.updated_at with e | b
    · simp [Event.isUpsert]
    · cases b <;> cases hd : env.downloadOk <;> cases hu : env.upsertOk <;>
        cases hs : env.summaryOn <;> simp [Event.isUpsert]
  · intro hch hd
    have h1 : fileIdMem f p = false := by simp [fileIdMem, hid, hmem]
    unfold process_canvas_file
    simp only [htr, h1, Bool.not_true, Bool.or_self, Bool.false_or, hid, hch, hd]
    cases hu : env.upsertOk <;> cases hs : env.summaryOn <;> simp [Event.isUpsert]

/-- Claim C4 witness: a first call for id 7 against an empty processed set
(decision Update: no existing metadata) followed by a second call for the
same id is a no-op returning 0, and the run contains exactly one upsert. -/
theorem C4_at_most_once_witness :
    (process_canvas_file sampleFile
        (process_canvas_file sampleFile ∅
          { existing := none, downloadOk := true, upsertOk := true, summaryOn := true }).2.1
        { existing := none, downloadOk := true, upsertOk := true, summaryOn := true } =
      (.ok 0,
        (process_canvas_file sampleFile ∅
          { existing := none, downloadOk := true, upsertOk := true, summaryOn := true }).2.1,
        [])) ∧
    ((process_canvas_file sampleFile ∅
        { existing := none, downloadOk := true, upsertOk := true, summaryOn := true
        }).2.2.filter Event.isUpsert).length = 1 := by
  have h := C4_at_most_once sampleFile ∅
    { existing := none, downloadOk := true, upsertOk := true, summaryOn := true } 7
    sampleFile
    { existing := none, downloadOk := true, upsertOk := true, summaryOn := true }
    rfl (by decide) (by decide) rfl
  exact ⟨h.1, h.2.2 rfl rfl⟩

/-- Claim C10: `process_canvas_file` adds the id to the processed set
before the change check, download or upsert, so the insertion survives
every outcome (including a change-check exception); a failed download or
upsert still returns 0 (the artifact is not counted as synced); and every
later call for the same id — the retry a second traversal path would be —
is a no-op returning 0.  The guarantee is at-most-once attempt per id per
run, not at-least-once success. -/
theorem C10_marked_before_attempt :
    ∀ (f : FileInfo) (p : Finset Int) (env : FileEnv) (i : Int),
      f.id = some i → fileFieldsTruthy f = true → i ∉ p →
      ((process_canvas_file f p env).2.1 = insert i p) ∧
      ((env.downloadOk = false ∨ env.upsertOk = false) →
        (process_canvas_file f p env).1 ≠ .ok 1) ∧
      (∀ (f' : FileInfo) (env' : FileEnv), f'.id = some i →
        process_canvas_file f' (insert i p) env' = (.ok 0, insert i p, [])) := by
  intro f p env i hid htr hmem
  refine ⟨process_canvas_file_insert f p env i hid htr hmem, ?_, ?_⟩
  · intro hfail
    have h1 : fileIdMem f p = false := by simp [fileIdMem, hid, hmem]
    unfold process_canvas_file
    simp only [htr, h1, Bool.not_true, Bool.or_self, Bool.false_or, hid]
    rcases h : has_file_changed env.existing f.size f.updated_at with e | b
    · simp
    · rcases hfail with hf | hf <;>
        cases b <;> cases hd : env.downloadOk <;> cases hu : env.upsertOk <;>
        simp_all
  · intro f' env' hid'
    exact process_canvas_file_mem f' (insert i p) env' i hid' (Finset.mem_insert_self i p)

/-- Claim C10 witness: id 7, empty processed set, download fails — the id
is recorded, the call returns 0, and a retry is a no-op. -/
theorem C10_marked_before_attempt_witness :
    (process_canvas_file sampleFile ∅
      { existing := none, downloadOk := false, upsertOk := true, summaryOn := true }).2.1 =
      insert (7 : Int) ∅ ∧
    (process_canvas_file sampleFile ∅
      { existing := none, downloadOk := false, upsertOk := true, summaryOn := true }).1 ≠
      .ok 1 := by
  have h := C10_marked_before_attempt sampleFile ∅
    { existing := none, downloadOk := false, upsertOk := true, summaryOn := true } 7
    rfl (by decide) (by decide)
  exact ⟨h.1, h.2.1 (Or.inl rfl)⟩

/-- Claim C8: when the upsert fails, the downloaded or rendered temp file
is removed and no summary entry is appended, and the call does not report
a synced item; a summary entry ever appearing in a trace forces a
successful upsert.  This holds for `process_canvas_file` and for
`_export_json_resource` (whose `finally` removes the temp file on both
outcomes). -/
theorem C8_failure_cleanup :
    (∀ (f : FileInfo) (p : Finset Int) (env : FileEnv), env.upsertOk = false →
      (process_canvas_file f p env).1 ≠ .ok 1 ∧
      (∀ fn a, Event.summaryAdd fn a ∉ (process_canvas_file f p env).2.2) ∧
      (∀ fn xid, Event.upsert fn xid ∈ (process_canvas_file f p env).2.2 →
        Event.removeTemp fn ∈ (process_canvas_file f p env).2.2)) ∧
    (∀ (f : FileInfo) (p : Finset Int) (env : FileEnv) (fn a : String),
      Event.summaryAdd fn a ∈ (process_canvas_file f p env).2.2 → env.upsertOk = true) ∧
    (∀ (fn : String) (ex : Option Metadata) (son : Bool),
      (export_json_resource fn ex false son).1 = 0 ∧
      (∀ g a, Event.summaryAdd g a ∉ (export_json_resource fn ex false son).2) ∧
      Event.removeTemp fn ∈ (export_json_resource fn ex false son).2) ∧
    (∀ (fn : String) (ex : Option Metadata) (ok son : Bool) (g a : String),
      Event.summaryAdd g a ∈ (export_json_resource fn ex ok son).2 → ok = true) := by
  refine ⟨?_, ?_, ?_, ?_⟩
  · intro f p env hu
    unfold process_canvas_file
    cases hg : (!fileFieldsTruthy f || fileIdMem f p)
    · cases hid : f.id
      · simp
      · simp only [hg, Bool.false_eq_true, if_false, hid]
        rcases h : has_file_changed env.existing f.size f.updated_at with e | b
        · simp
        · cases b <;> cases hd : env.downloadOk <;> simp [hu]
    · simp [hg]
  · intro f p env fn a hmemb
    by_contra hne
    have hu : env.upsertOk = false := by
      cases h : env.upsertOk
      · rfl
      · exact absurd h hne
    unfold process_canvas_file at hmemb
    cases hg : (!fileFieldsTruthy f || fileIdMem f p) <;> simp only [hg] at hmemb
    · cases hid : f.id <;> simp only [hid] at hmemb
      · simp at hmemb
      · rcases h : has_file_changed env.existing f.size f.updated_at with e | b <;>
          simp only [h] at hmemb
        · simp at hmemb
        · cases b <;> cases hd : env.downloadOk <;> simp [hu, hd] at hmemb
    · simp at hmemb
  · intro fn ex son
    refine ⟨rfl, ?_, ?_⟩ <;> simp [export_json_resource]
  · intro fn ex ok son g a hmemb
    cases h : ok
    · subst h
      simp [export_json_resource] at hmemb
    · rfl

/-- Claim C8 witness: a failed local save for a downloaded file — the call
reports 0, its trace has no summary entry, and the temp file removal
follows the attempted upsert. -/
theorem C8_failure_cleanup_witness :
    (process_canvas_file sampleFile ∅
      { existing := none, downloadOk := true, upsertOk := false, summaryOn := true }).1 ≠
      .ok 1 ∧
    Event.summaryAdd "notes.pdf" "created" ∉
      (process_canvas_file sampleFile ∅
        { existing := none, downloadOk := true, upsertOk := false, summaryOn := true }).2.2 ∧
    (export_json_resource "announcements.json" none false true).1 = 0 := by
  have h := C8_failure_cleanup.1 sampleFile ∅
    { existing := none, downloadOk := true, upsertOk := false, summaryOn := true } rfl
  have h2 := C8_failure_cleanup.2.2.1 "announcements.json" none true
  exact ⟨h.1, h.2.1 "notes.pdf" "created", h2.1⟩

/-- Helper: assignment stores a binding that lookup finds. -/
theorem dictGet_dictSet_self (m : List (String × PageJson)) (k : String) (v : PageJson) :
    dictGet (dictSet m k v) k = some v := by
  induction m with
  | nil => simp [dictSet, dictGet]
  | cons kv rest ih =>
    by_cases h : kv.1 = k
    · simp [dictSet, dictGet, h]
    · simp [dictSet, dictGet, h, ih]

/-- Helper: assignment leaves every other key's binding unchanged. -/
theorem dictGet_dictSet_other (m : List (String × PageJson)) (k k' : String) (v : PageJson)
    (h : k' ≠ k) : dictGet (dictSet m k v) k' = dictGet m k' := by
  induction m with
  | nil => simp [dictSet, dictGet, Ne.symm h]
  | cons kv rest ih =>
    by_cases hk : kv.1 = k
    · simp [dictSet, dictGet, hk, Ne.symm h]
    · simp [dictSet, dictGet, hk, ih]

/-- Helper: a value found in the direct-listing map is a direct-listing
page keyed by its own fallback slug (or was already in the accumulator). -/
theorem directFold_provenance (direct : List PageJson) :
    ∀ (m : List (String × PageJson)) (k : String) (v : PageJson),
      dictGet (direct.foldl
        (fun m p => match pageSlug p with | some s => dictSet m s p | none => m) m) k =
          some v →
      dictGet m k = some v ∨ (v ∈ direct ∧ pageSlug v = some k) := by
  induction direct with
  | nil => intro m k v h; exact Or.inl h
  | cons p rest ih =>
    intro m k v h
    rw [List.foldl_cons] at h
    rcases ih _ k v h with h' | h'
    · rcases hs : pageSlug p with _ | s
      · rw [hs] at h'
        exact Or.inl h'
      · rw [hs] at h'
        by_cases hk : k = s
        · subst hk
          rw [dictGet_dictSet_self] at h'
          cases h'
          exact Or.inr ⟨List.mem_cons_self p rest, hs⟩
        · rw [dictGet_dictSet_other m s k p hk] at h'
          exact Or.inl h'
    · exact Or.inr ⟨List.mem_cons_of_mem p h'.1, h'.2⟩

/-- Helper: once a key is bound, the direct-listing fold keeps it bound. -/
theorem directFold_keeps_key (direct : List PageJson) :
    ∀ (m : List (String × PageJson)) (k : String),
      (dictGet m k).isSome →
      (dictGet (direct.foldl
        (fun m p => match pageSlug p with | some s => dictSet m s p | none => m) m)
        k).isSome := by
  induction direct with
  | nil => intro m k h; exact h
  | cons p rest ih =>
    intro m k h
    rw [List.foldl_cons]
    apply ih
    rcases hs : pageSlug p with _ | s
    · exact h
    · by_cases hk : k = s
      · subst hk
        rw [dictGet_dictSet_self]
        rfl
      · rw [dictGet_dictSet_other m s k p hk]
        exact h

/-- Helper: a direct-listing page with a truthy slug leaves its slug bound
in the direct-listing map. -/
theorem directPagesMap_mem (direct : List PageJson) :
    ∀ (m : List (String × PageJson)) (s : String) (p : PageJson),
      p ∈ direct → pageSlug p = some s →
      (dictGet (direct.foldl
        (fun m p => match pageSlug p with | some s => dictSet m s p | none => m) m)
        s).isSome := by
  induction direct with
  | nil => intro m s p h; exact absurd h (List.not_mem_nil p)
  | cons q rest ih =>
    intro m s p hp hs
    rw [List.foldl_cons]
    rcases List.mem_cons.mp hp with h | h
    · subst h
      apply directFold_keeps_key
      rw [hs, dictGet_dictSet_self]
      rfl
    · exact ih _ s p h hs

/-- Helper: the module pass never changes the binding of a key that is
already present. -/
theorem addModulePages_keeps (mods : List ModulePageFetch) :
    ∀ (m : List (String × PageJson)) (s : String),
      (dictGet m s).isSome →
      dictGet (addModulePages m mods) s = dictGet m s := by
  induction mods with
  | nil => intro m s _; rfl
  | cons mp rest ih =>
    intro m s h
    unfold addModulePages
    rw [List.foldl_cons]
    rcases hms : modulePageSlug mp with _ | s'
    · exact ih m s h
    · by_cases hpres : (dictGet m s').isSome
      · simp only [hpres, if_true]
        exact ih m s h
      · simp only [hpres, if_false, Bool.false_eq_true]
        have hne : s ≠ s' := by
          intro hh
          subst hh
          exact hpres h
        have := ih (dictSet m s' (modulePageDict mp)) s
          (by rw [dictGet_dictSet_other m s' s _ hne]; exact h)
        rw [dictGet_dictSet_other m s' s _ hne] at this
        exact this

/-- Helper: a key bound after the module pass was bound before it or is
the slug of some module-discovered page. -/
theorem addModulePages_provenance (mods : List ModulePageFetch) :
    ∀ (m : List (String × PageJson)) (s : String) (v : PageJson),
      dictGet (addModulePages m mods) s = some v →
      (dictGet m s).isSome ∨ ∃ mp ∈ mods, modulePageSlug mp = some s := by
  induction mods with
  | nil =>
    intro m s v h
    have h' : dictGet m s = some v := h
    exact Or.inl (by rw [h']; rfl)
  | cons mp rest ih =>
    intro m s v h
    unfold addModulePages at h
    rw [List.foldl_cons] at h
    rcases hms : modulePageSlug mp with _ | s'
    · rw [hms] at h
      rcases ih m s v h with h' | ⟨mq, hmq, hq⟩
      · exact Or.inl h'
      · exact Or.inr ⟨mq, List.mem_cons_of_mem mp hmq, hq⟩
    · rw [hms] at h
      by_cases hpres : (dictGet m s').isSome
      · simp only [hpres, if_true] at h
        rcases ih m s v h with h' | ⟨mq, hmq, hq⟩
        · exact Or.inl h'
        · exact Or.inr ⟨mq, List.mem_cons_of_mem mp hmq, hq⟩
      · simp only [hpres, if_false, Bool.false_eq_true] at h
        rcases ih _ s v h with h' | ⟨mq, hmq, hq⟩
        · by_cases hk : s = s'
          · subst hk
            exact Or.inr ⟨mp, List.mem_cons_self mp rest, hms⟩
          · rw [dictGet_dictSet_other m s' s _ hk] at h'
            exact Or.inl h'
        · exact Or.inr ⟨mq, List.mem_cons_of_mem mp hmq, hq⟩

/-- Claim C7: the merged pages map is keyed by the fallback slug
(slug field, then alternate slug field, then title, first truthy wins);
every key of the merged map is the slug of a direct-listing page or of a
module-discovered page; a slug claimed by the direct listing keeps its
direct-listing binding through the module pass, and that binding is a
direct-listing page with that slug; and a module-discovered page does fill
a slug that the direct listing left free. -/
theorem C7_page_merge :
    (∀ p : PageJson, pageSlug p =
      (if optStrTruthy p.url then p.url
       else if optStrTruthy p.page_url then p.page_url
       else if optStrTruthy p.title then p.title else none)) ∧
    (∀ mp : ModulePageFetch, modulePageSlug mp =
      (if optStrTruthy mp.pd.url then mp.pd.url
       else if optStrTruthy mp.itemPageUrl then mp.itemPageUrl
       else if optStrTruthy mp.pd.title then mp.pd.title else none)) ∧
    (∀ (direct : List PageJson) (mods : List ModulePageFetch) (s : String) (p : PageJson),
      p ∈ direct → pageSlug p = some s →
      dictGet (pages_map direct mods) s = dictGet (directPagesMap direct) s ∧
      ∃ q ∈ direct, pageSlug q = some s ∧ dictGet (pages_map direct mods) s = some q) ∧
    (∀ (direct : List PageJson) (mods : List ModulePageFetch) (s : String) (v : PageJson),
      dictGet (pages_map direct mods) s = some v →
      (∃ p ∈ direct, pageSlug p = some s) ∨ ∃ mp ∈ mods, modulePageSlug mp = some s) ∧
    (∀ (direct : List PageJson) (mp : ModulePageFetch) (s : String),
      modulePageSlug mp = some s → dictGet (directPagesMap direct) s = none →
      dictGet (pages_map direct [mp]) s = some (modulePageDict mp)) := by
  refine ⟨fun p => rfl, fun mp => rfl, ?_, ?_, ?_⟩
  · intro direct mods s p hp hs
    have hsome : (dictGet (directPagesMap direct) s).isSome :=
      directPagesMap_mem direct [] s p hp hs
    have hkeep := addModulePages_keeps mods (directPagesMap direct) s hsome
    refine ⟨hkeep, ?_⟩
    rcases Option.isSome_iff_exists.mp hsome with ⟨v, hv⟩
    rcases directFold_provenance direct [] s v hv with h | h
    · simp [dictGet] at h
    · exact ⟨v, h.1, h.2, by rw [pages_map, hkeep, hv]⟩
  · intro direct mods s v h
    rcases addModulePages_provenance mods (directPagesMap direct) s v h with h' | h'
    · rcases Option.isSome_iff_exists.mp h' with ⟨w, hw⟩
      rcases directFold_provenance direct [] s w hw with h'' | h''
      · simp [dictGet] at h''
      · exact Or.inl ⟨w, h''.1, h''.2⟩
    · exact Or.inr h'
  · intro direct mp s hms hnone
    unfold pages_map addModulePages
    rw [List.foldl_cons, List.foldl_nil, hms]
    simp [hnone, dictGet_dictSet_self]

/-- Claim C7 witness: a page present in the direct listing under slug
`"syllabus"` and also discovered via a module resolves to the
direct-listing version. -/
theorem C7_page_merge_witness :
    dictGet (pages_map [directSyllabusPage] [moduleSyllabusPage]) "syllabus" =
      some directSyllabusPage := by
  have h := C7_page_merge.2.2.1 [directSyllabusPage] [moduleSyllabusPage]
    "syllabus" directSyllabusPage (List.mem_singleton.mpr rfl) rfl
  rcases h.2 with ⟨q, hq, _, hget⟩
  rw [List.mem_singleton] at hq
  rw [hget, hq]

/-- Claim C9: for an anchor element whose rendered child text is non-empty
after trimming, `process_element` emits no flowable of its own — its
output flowables are exactly those its children emitted — and returns its
result inline: the plain child text when the href starts with `"#"` (an
in-document fragment reference), otherwise the child text wrapped in an
inline `<link href=...>` marker carrying the href. -/
theorem C9_anchor_inline :
    ∀ (styles : String → PStyle) (name : String) (href : Option String)
      (cs : List HNode) (cst : Option PStyle),
      pyLower name = "a" →
      pyStrip (process_children styles cs cst).1 ≠ "" →
      process_element styles (.tag name href cs) cst =
        (if pyStartsWith (href.getD "") "#" then
          (process_children styles cs cst).1
        else
          "<link href=\"" ++ href.getD "" ++ "\">" ++
            (process_children styles cs cst).1 ++ "</link>",
        (process_children styles cs cst).2) := by
  intro styles name href cs cst htag hne
  have hne' : (pyStrip (process_children styles cs cst).1 == "") = false :=
    beq_eq_false_iff_ne.mpr hne
  unfold process_element
  simp only [htag, hne', String.reduceEq, Bool.not_false, Bool.false_or, Bool.or_self,
    Bool.or_false, beq_self_eq_true, if_true, reduceIte]
  by_cases hs : pyStartsWith (href.getD "") "#" = true <;> simp [hs]

/-- Claim C9 witness: an anchor with child text `"Course page"` targeting
the in-document fragment `"#top"` degrades to its plain child text, with
no flowable emitted. -/
theorem C9_anchor_inline_witness :
    process_element sampleStyles (.tag "a" (some "#top") [.text "Course page"]) none =
      ("Course page", []) := by
  have h := C9_anchor_inline sampleStyles "a" (some "#top") [.text "Course page"] none
    rfl (by decide)
  rw [h]
  rfl

end CanvasSync
